import Mathlib

/-!
Verification development for the rcon-ts RCON client
(canonical core: `src/index.ts`, containing the `Rcon` class and the
protocol module with `parsePacket`, `createPacketWithLength` and
`packetsFromStream`).

Modelling conventions:
* Node `Buffer` values are `List Nat`, each cell a byte (`< 256`); the
  byte invariant is made explicit with `% 256` where the source relies
  on `Buffer` cells being uint8.
* JS strings that only flow through the codec are modelled by their
  UTF-8 byte lists; strings whose trimming behaviour matters (host,
  password) are modelled as Lean `String`.
* Fallible operations (`Buffer.readInt32LE` bounds errors, `throw`)
  are modelled with `Option` / `Except`.
* `NaN`-sentinel fields (`_authPacketId`) are modelled as `Option Int`.
-/

namespace Rcon

/-- Model of `Buffer.readInt32LE(off)`: reads 4 bytes little-endian as a signed
int32; throws a range error (here `none`) when fewer than 4 bytes are
available at `off`. Cells are uint8, hence the `% 256`. -/
def readInt32LE (buf : List Nat) (off : Nat) : Option Int :=
  if off + 4 ≤ buf.length then
    let u : Nat := buf.getD off 0 % 256 + 256 * (buf.getD (off + 1) 0 % 256)
      + 65536 * (buf.getD (off + 2) 0 % 256) + 16777216 * (buf.getD (off + 3) 0 % 256)
    some (if u < 2147483648 then (u : Int) else (u : Int) - 4294967296)
  else none

/-- Model of `Buffer.writeInt32LE(v, off)`: the 4 bytes written, little-endian
(two's complement of the int32 value). -/
def writeInt32LE (v : Int) : List Nat :=
  let u : Nat := (v % 4294967296).toNat
  [u % 256, u / 256 % 256, u / 65536 % 256, u / 16777216 % 256]

/-- The `Packet` interface from `protocol.ts`: `{ id, type, body }`; the body string is
modelled by its UTF-8 bytes. -/
structure Packet where
  id : Int
  type : Int
  body : List Nat
  deriving DecidableEq, Repr

/-- Function `parsePacket(packet)` from `protocol.ts`: reads id at offset 0, type
at offset 4 and the body as `packet.subarray(8, packet.length - 2)`.
There is no explicit length check: failure (`none`) only comes from the
two `readInt32LE` calls. -/
def parsePacket (packet : List Nat) : Option Packet :=
  match readInt32LE packet 0, readInt32LE packet 4 with
  | some id, some type =>
    some ⟨id, type, (packet.drop 8).take (packet.length - 2 - 8)⟩
  | _, _ => none

/-- Function `createPacketWithLength(packet)` from `protocol.ts`: 4-byte length
field (`10 + bodyLength`), id, type, body, then two zero bytes (the
`buf.fill(0, 12 + bodyLength)` on a `4 + length`-byte buffer). -/
def createPacketWithLength (p : Packet) : List Nat :=
  let bodyLength := p.body.length
  let length := 10 + bodyLength
  writeInt32LE length ++ writeInt32LE p.id ++ writeInt32LE p.type ++ p.body ++ [0, 0]

/-- TypedArray index resolution used by `Buffer.subarray`: a negative
index is relative to the end of the buffer, and indices are clamped to
`[0, length]`. -/
def jsIndex (len : Nat) (i : Int) : Nat :=
  if i < 0 then (max ((len : Int) + i) 0).toNat else min i.toNat len

/-- Model of `buf.subarray(s, e)` (empty when the resolved end is not past the
resolved start). -/
def jsSubarray (buf : List Nat) (s e : Int) : List Nat :=
  (buf.take (jsIndex buf.length e)).drop (jsIndex buf.length s)

/-- One run of the `packetsFromStream` generator from `protocol.ts`,
over the list of chunks the transport delivers. Returns the yielded
values in order (each `parsePacket packetBuf`; `none` marks a yield
whose parse threw) and whether the final `throw new Error('Incomplete
stream')` fires. Note the source checks `data.length + 4 >= length`
and extracts at most one packet per delivered chunk (an `if`, not a
loop). -/
def packetsFromStreamGo : List Nat → List (List Nat) → List (Option Packet) × Bool
  | data, [] => ([], decide (data.length > 0))
  | data, chunk :: rest =>
    let d := if data.length = 0 then chunk else data ++ chunk
    if d.length ≥ 14 then
      match readInt32LE d 0 with
      | some len =>
        if (d.length : Int) + 4 ≥ len then
          let packetBuf := jsSubarray d 4 (4 + len)
          let r := packetsFromStreamGo (jsSubarray d (4 + len) (d.length : Int)) rest
          (parsePacket packetBuf :: r.1, r.2)
        else packetsFromStreamGo d rest
      | none => packetsFromStreamGo d rest
    else packetsFromStreamGo d rest

/-- Function `packetsFromStream(stream)`: starts with an empty accumulation
buffer. -/
def packetsFromStream (chunks : List (List Nat)) : List (Option Packet) × Bool :=
  packetsFromStreamGo [] chunks

/-! ### The `Rcon` client: state machine, correlation registry, facade -/

/-- The `State` enum from `index.ts`. -/
inductive State where
  | Disconnected
  | Connecting
  | Connected
  | Authorized
  | Refused
  | Unauthorized
  deriving DecidableEq, Repr

/-- Numeric values of the TS enum members (`Connecting = 0.5`). -/
def State.value : State → ℚ
  | .Disconnected => 0
  | .Connecting => mkRat 1 2
  | .Connected => 1
  | .Authorized => 2
  | .Refused => -1
  | .Unauthorized => -2

/-- The guard at the top of `Rcon.send`:
`if (!this._connector || this._state <= 0) throw new RconError('Instance is not connected.')`.
Returns `true` when `send` throws `Instance is not connected.` before
doing anything else. -/
def sendGuardThrows (hasConnector : Bool) (st : State) : Bool :=
  !hasConnector || decide (st.value ≤ 0)

/-- The `RconError` values delivered through the `_send` promise and
`_handleResponse`. -/
inductive RconErr where
  | authenticationFailed
  | noData
  | requestTimedOut
  | disconnectedBeforeResponse
  deriving DecidableEq, Repr

/-- Terminal outcome of a `_send` promise. -/
inductive Outcome where
  | resolved (body : List Nat)
  | rejected (e : RconErr)
  deriving DecidableEq, Repr

/-- The callback `_send` stores in `_callbacks`:
`(data, err) => { cleanup(); if (err) reject(err); if (data == null) reject(noData); else resolve(data); }`.
When `err` is present the promise settles on the first `reject`, so
`err` wins over the `data == null` check. -/
def sendCallbackOutcome (data : Option (List Nat)) (err : Option RconErr) : Outcome :=
  match err with
  | some e => .rejected e
  | none =>
    match data with
    | none => .rejected .noData
    | some s => .resolved s

/-- The part of the client state `_handleResponse` reads and writes:
the key set of the `_callbacks` map and `_authPacketId` (`NaN` ↦
`none`). -/
structure HandlerState where
  callbacks : List Int
  authPacketId : Option Int
  deriving DecidableEq, Repr

/-- Trailing-newline strip in `_handleResponse`:
`if (str.charAt(str.length - 1) === '\n') str = str.substring(0, str.length - 1)`. -/
def stripTrailingNewline (s : List Nat) : List Nat :=
  if s.getLast? = some 10 then s.dropLast else s

/-- Model of the `Buffer.toString` range resolution: offsets are clamped to
`[0, length]` (a negative offset clamps to 0, unlike `subarray`). -/
def bufRange (buf : List Nat) (s e : Int) : List Nat :=
  let clamp : Int → Nat := fun i => if i < 0 then 0 else min i.toNat buf.length
  (buf.take (clamp e)).drop (clamp s)

/-- Body text extracted by `_handleResponse`:
`data.toString('utf8', 12, len + 2)` with the trailing newline strip
(kept as UTF-8 bytes). -/
def responseBody (data : List Nat) (len : Int) : List Nat :=
  stripTrailingNewline (bufRange data 12 (len + 2))

/-- One `_handleResponse(data)` call: reads `len`, `id`, `type` from
the chunk, throws on a zero `len` (`.error`, escaping the data handler),
special-cases the auth-failure reply (`id == -1`, auth pending,
`type == RESPONSE_AUTH`), otherwise dispatches to the callback
registered under `id` if any (stray ids are a no-op). Returns the
updated state and the invocation performed: the target id and the
outcome the stored `_send` callback produces. -/
def handleResponse (st : HandlerState) (data : List Nat) :
    Except String (HandlerState × Option (Int × Outcome)) :=
  match readInt32LE data 0 with
  | none => .error "RangeError"
  | some len =>
    if len = 0 then .error "Received empty response package"
    else
      match readInt32LE data 4, readInt32LE data 8 with
      | some id0, some type0 =>
        if id0 = -1 ∧ st.authPacketId ≠ none ∧ type0 = 2 then
          match st.authPacketId with
          | some authId =>
            if authId ∈ st.callbacks then
              .ok (⟨st.callbacks.filter (fun k => k ≠ authId), none⟩,
                some (authId, sendCallbackOutcome none (some .authenticationFailed)))
            else .ok (st, none)
          | none => .ok (st, none)
        else
          if id0 ∈ st.callbacks then
            .ok (⟨st.callbacks.filter (fun k => k ≠ id0), st.authPacketId⟩,
              some (id0, sendCallbackOutcome (some (responseBody data len)) none))
          else .ok (st, none)
      | _, _ => .error "RangeError"

/-- The client state `Rcon.disconnect` touches: the `_callbacks` map,
`_socket` and `_connector`. -/
structure ClientConn where
  callbacks : List Int
  hasSocket : Bool
  hasConnector : Bool
  deriving DecidableEq, Repr

/-- Method `disconnect()`:
`this._callbacks.clear(); if (s) s.end(); this._socket = undefined; this._connector = undefined;`
The second component lists the outcomes it delivers to pending
requests — always `[]`: clearing the map invokes no callback, and
`s.end()` merely half-closes the socket (any rejection happens later,
from the per-request `end`/`error` listeners or timers). -/
def disconnect (_c : ClientConn) : ClientConn × List (Int × Outcome) :=
  (⟨[], false, false⟩, [])

/-- Per-request bookkeeping created by `_send`: the `_callbacks` entry,
the timeout timer and the socket `end`/`error` `once`-listeners;
`cleanup()` tears all three down together. -/
structure ReqState where
  inMap : Bool
  timerActive : Bool
  listenersActive : Bool
  deriving DecidableEq, Repr

/-- State after `cleanup()` ran. -/
def ReqState.cleanup : ReqState := ⟨false, false, false⟩

/-- State right after registration. -/
def ReqState.registered : ReqState := ⟨true, true, true⟩

/-- Events that can reach one pending request: a packet carrying its id
dispatched by `_handleResponse`, its timeout timer firing, and the
socket `end` / `error` events. -/
inductive ReqEv where
  | response (data : Option (List Nat)) (err : Option RconErr)
  | timerFire
  | endEv
  | errorEv
  deriving DecidableEq, Repr

/-- Delivery of one event to one pending request, following `_send`:
each handler runs only if still installed (map entry present, timer not
cleared, `once`-listener not removed) and runs `cleanup()` before
settling the promise. -/
def reqStep : ReqState → ReqEv → ReqState × Option Outcome
  | s, .response d e =>
    if s.inMap then (ReqState.cleanup, some (sendCallbackOutcome d e)) else (s, none)
  | s, .timerFire =>
    if s.timerActive then (ReqState.cleanup, some (.rejected .requestTimedOut)) else (s, none)
  | s, .endEv =>
    if s.listenersActive then
      (ReqState.cleanup, some (.rejected .disconnectedBeforeResponse))
    else (s, none)
  | s, .errorEv =>
    if s.listenersActive then
      (ReqState.cleanup, some (.rejected .disconnectedBeforeResponse))
    else (s, none)

/-- All events of a trace delivered in order to one request; collects
the outcomes settled on its promise. -/
def runTrace : ReqState → List ReqEv → ReqState × List Outcome
  | s, [] => (s, [])
  | s, e :: evs =>
    let r := reqStep s e
    let rest := runTrace r.1 evs
    (rest.1, r.2.toList ++ rest.2)

/-! ### Array aliasing: the `errors` accessor -/

/-- A heap of JS arrays (cells of error tokens), addressed by
reference; needed to state the aliasing behaviour of
`get errors(): return this._errors.slice()`. -/
structure Heap where
  cells : List (List Nat)
  deriving DecidableEq, Repr

def Heap.get (h : Heap) (r : Nat) : List Nat := h.cells.getD r []

/-- Allocation of a fresh array holding `v`. -/
def Heap.alloc (h : Heap) (v : List Nat) : Heap × Nat :=
  (⟨h.cells ++ [v]⟩, h.cells.length)

/-- In-place mutation of the array behind reference `r`. -/
def Heap.write (h : Heap) (r : Nat) (v : List Nat) : Heap := ⟨h.cells.set r v⟩

/-- Accessor `get errors(): return this._errors.slice()` — `slice()` with no
arguments copies the whole array into a freshly allocated one;
`_errors` lives behind `errorsRef`. -/
def errorsGetter (h : Heap) (errorsRef : Nat) : Heap × Nat :=
  h.alloc (h.get errorsRef)

/-! ### Constructor validation and the auth packet body -/

/-- The ECMA-262 white-space and line-terminator code points removed by
`String.prototype.trim`. -/
def jsWhitespaceCodes : List Nat :=
  [9, 10, 11, 12, 13, 32, 160, 5760, 8192, 8193, 8194, 8195, 8196, 8197,
   8198, 8199, 8200, 8201, 8202, 8232, 8233, 8239, 8287, 12288, 65279]

def jsWhitespace (c : Char) : Bool := c.toNat ∈ jsWhitespaceCodes

/-- Model of `String.prototype.trim`. -/
def jsTrim (s : String) : String :=
  ⟨((s.data.dropWhile jsWhitespace).reverse.dropWhile jsWhitespace).reverse⟩

/-- The `Rcon` constructor restricted to the validated fields the
claims concern: `this.host = host = host && host.trim()` followed by
`if (!host) throw`, then `if (!password || !password.trim()) throw`,
then `this.password = password` (untrimmed). `none` models the thrown
`TypeError`; `some (host, password)` the stored fields. -/
def rconCtorHostPassword (host password : String) : Option (String × String) :=
  let h := if host.isEmpty then host else jsTrim host
  if h.isEmpty then none
  else if password.isEmpty then none
  else if (jsTrim password).isEmpty then none
  else some (h, password)

/-- The outgoing buffer built by `_send` (`length + 10`, id, cmd, body
bytes, two zero bytes from the final `fill`); `connect` calls
`_send(this.password, ClientPacketType.AUTH)`, so the auth packet's
body is exactly the stored password's bytes. -/
def sendBuffer (data : List Nat) (id cmd : Int) : List Nat :=
  writeInt32LE ((data.length : Int) + 10) ++ writeInt32LE id ++ writeInt32LE cmd
    ++ data ++ [0, 0]

/-! ### Theorems -/

theorem readInt32LE_writeInt32LE (v : Int) (rest : List Nat)
    (h1 : -2147483648 ≤ v) (h2 : v < 2147483648) :
    readInt32LE (writeInt32LE v ++ rest) 0 = some v := by
  unfold readInt32LE writeInt32LE
  simp only [List.cons_append, List.nil_append, List.getD_cons_zero, List.getD_cons_succ,
    List.length_cons, List.length_append, Nat.zero_add]
  rw [if_pos (by omega)]
  simp only [Option.some.injEq]
  split <;> omega

theorem readInt32LE_append_skip (a : List Nat) (b : List Nat) (off : Nat)
    (ha : a.length ≤ off) :
    readInt32LE (a ++ b) off = readInt32LE b (off - a.length) := by
  unfold readInt32LE
  have hg : ∀ k, (a ++ b).getD (off + k) 0 = b.getD (off - a.length + k) 0 := by
    intro k
    rw [List.getD_append_right a b 0 (off + k) (by omega)]
    congr 1
    omega
  have h0 := hg 0
  have h1 := hg 1
  have h2 := hg 2
  have h3 := hg 3
  simp only [Nat.add_zero] at h0
  have hlen : (a ++ b).length = a.length + b.length := List.length_append a b
  rw [hlen]
  by_cases hle : off - a.length + 4 ≤ b.length
  · rw [if_pos (by omega), if_pos hle, h0, h1, h2, h3]
  · rw [if_neg (by omega), if_neg hle]

theorem writeInt32LE_length (v : Int) : (writeInt32LE v).length = 4 := by
  simp [writeInt32LE]

/-- C2: decoding the encoding of any packet with int32 id and type
returns the same packet: `parsePacket` applied to the payload of
`createPacketWithLength p` (the encoded buffer minus its 4-byte length
prefix) is `p`. -/
theorem parsePacket_createPacketWithLength (p : Packet)
    (hi1 : -2147483648 ≤ p.id) (hi2 : p.id < 2147483648)
    (ht1 : -2147483648 ≤ p.type) (ht2 : p.type < 2147483648) :
    parsePacket ((createPacketWithLength p).drop 4) = some p := by
  obtain ⟨id, ty, body⟩ := p
  simp only [createPacketWithLength, List.append_assoc]
  rw [List.drop_left' (writeInt32LE_length _)]
  have h0 : readInt32LE (writeInt32LE id ++ (writeInt32LE ty ++ (body ++ [0, 0]))) 0
      = some id := readInt32LE_writeInt32LE id _ hi1 hi2
  have h4 : readInt32LE (writeInt32LE id ++ (writeInt32LE ty ++ (body ++ [0, 0]))) 4
      = some ty := by
    rw [readInt32LE_append_skip _ _ 4 (by rw [writeInt32LE_length])]
    rw [writeInt32LE_length]
    exact readInt32LE_writeInt32LE ty _ ht1 ht2
  have hdrop : (writeInt32LE id ++ (writeInt32LE ty ++ (body ++ [0, 0]))).drop 8
      = body ++ [0, 0] := by
    rw [show (8 : Nat) = 4 + 4 from rfl, ← List.drop_drop,
      List.drop_left' (writeInt32LE_length _), List.drop_left' (writeInt32LE_length _)]
  have hlen : (writeInt32LE id ++ (writeInt32LE ty ++ (body ++ [0, 0]))).length
      = body.length + 10 := by
    simp [writeInt32LE]
  unfold parsePacket
  rw [h0, h4, hdrop, hlen]
  have he : body.length + 10 - 2 - 8 = body.length := by omega
  have ht : List.take body.length (body ++ [0, 0]) = body := List.take_left' rfl
  rw [he, ht]

/-- Closed instance of the C2 round-trip theorem. -/
theorem parsePacket_createPacketWithLength_witness :
    parsePacket ((createPacketWithLength ⟨-5, 3, [104, 105]⟩).drop 4)
      = some ⟨-5, 3, [104, 105]⟩ :=
  parsePacket_createPacketWithLength ⟨-5, 3, [104, 105]⟩ (by norm_num) (by norm_num)
    (by norm_num) (by norm_num)

/-- C3 counterexample: an 8-byte buffer is shorter than the minimum
10-byte payload, yet `parsePacket` returns a packet (with empty body)
instead of failing: the source has no minimum-length check. -/
theorem parsePacket_short_buffer_decodes :
    (List.replicate 8 0).length < 10 ∧
      parsePacket (List.replicate 8 0) = some ⟨0, 0, []⟩ := by decide

/-- C3 amended: `parsePacket` fails exactly on buffers shorter than
8 bytes (and then with a `readInt32LE` bounds error, not a
`MalformedPacket` error); every buffer of at least 8 bytes decodes to a
packet. -/
theorem parsePacket_eq_none_iff (buf : List Nat) :
    parsePacket buf = none ↔ buf.length < 8 := by
  unfold parsePacket
  by_cases h8 : buf.length < 8
  · constructor
    · intro _; exact h8
    · intro _
      have hn : readInt32LE buf 4 = none := by
        unfold readInt32LE; rw [if_neg (by omega)]
      rw [hn]
      cases readInt32LE buf 0 <;> rfl
  · have h0 : (readInt32LE buf 0).isSome := by
      unfold readInt32LE; rw [if_pos (by omega)]; rfl
    have h4 : (readInt32LE buf 4).isSome := by
      unfold readInt32LE; rw [if_pos (by omega)]; rfl
    obtain ⟨a, ha⟩ := Option.isSome_iff_exists.mp h0
    obtain ⟨b, hb⟩ := Option.isSome_iff_exists.mp h4
    rw [ha, hb]
    simp [h8]

/-- C1: evaluation of the stream reassembler at the failing input.
Two minimal 14-byte packets delivered in a single chunk: only the first
is yielded and the generator then throws `Incomplete stream` (the
source extracts at most one packet per chunk), whereas the same bytes
split at the packet boundary yield both packets with no error — the
packet sequence depends on the chunking. -/
theorem packetsFromStream_chunking_divergence :
    packetsFromStream
        [createPacketWithLength ⟨0, 0, []⟩ ++ createPacketWithLength ⟨0, 0, []⟩]
      = ([some ⟨0, 0, []⟩], true) ∧
    packetsFromStream
        [createPacketWithLength ⟨0, 0, []⟩, createPacketWithLength ⟨0, 0, []⟩]
      = ([some ⟨0, 0, []⟩, some ⟨0, 0, []⟩], false) := by decide

theorem reqStep_cleanup (e : ReqEv) : reqStep ReqState.cleanup e = (ReqState.cleanup, none) := by
  cases e <;> rfl

theorem runTrace_cleanup (evs : List ReqEv) :
    runTrace ReqState.cleanup evs = (ReqState.cleanup, []) := by
  induction evs with
  | nil => rfl
  | cons e evs ih =>
    show (_, (reqStep ReqState.cleanup e).2.toList ++ _) = _
    rw [reqStep_cleanup]
    simpa [runTrace, reqStep_cleanup] using ih

/-- C4 counterexample: with a connect attempt in flight (`_connector`
set, state `Connecting`), the `send` guard does not throw, although
`Connecting` is neither `Connected` nor `Authorized` — a send issued
before `connect` completes does not fail with `NotConnected`. -/
theorem sendGuard_connecting_passes :
    sendGuardThrows true State.Connecting = false ∧
    State.Connecting ≠ State.Connected ∧ State.Connecting ≠ State.Authorized := by
  decide

/-- C4 amended: `send` throws `Instance is not connected.` exactly when
no connector is present or the state value is ≤ 0 (`Disconnected`,
`Refused`, `Unauthorized`). With a connector present the guard passes
in the `Connecting`, `Connected` and `Authorized` states — a send
issued before `connect` completes awaits the in-flight connector
instead of failing. -/
theorem sendGuard_eq_false_iff (hasConnector : Bool) (st : State) :
    sendGuardThrows hasConnector st = false ↔
      hasConnector = true ∧
        (st = State.Connecting ∨ st = State.Connected ∨ st = State.Authorized) := by
  cases hasConnector <;> cases st <;> decide

/-- C5 counterexample: a zero-declared-length chunk while request
`1000001` is pending makes `_handleResponse` throw (escaping the
socket `data` handler) instead of invoking the pending callback — the
error is not delivered to the awaiting `send` caller. -/
theorem emptyResponse_thrown_not_delivered :
    handleResponse ⟨[1000001], none⟩ [0, 0, 0, 0] =
      Except.error "Received empty response package" := by
  rfl

/-- C5 amended: whenever the declared length field of the incoming
chunk is zero, `_handleResponse` throws
`RconError('Received empty response package')` out of the `data`
handler; no pending callback is invoked and the state is untouched, so
the awaiting caller is left to its timeout or the `end`/`error`
listeners. -/
theorem emptyResponse_throws (st : HandlerState) (data : List Nat)
    (h : readInt32LE data 0 = some 0) :
    handleResponse st data = Except.error "Received empty response package" := by
  unfold handleResponse
  rw [h]
  simp

/-- Closed instance of the C5 amended theorem. -/
theorem emptyResponse_throws_witness :
    handleResponse ⟨[], some 7⟩ [0, 0, 0, 0, 1, 2, 3, 4, 5, 6, 7, 8] =
      Except.error "Received empty response package" :=
  emptyResponse_throws ⟨[], some 7⟩ [0, 0, 0, 0, 1, 2, 3, 4, 5, 6, 7, 8] (by decide)

/-- C6 counterexample: with request `1000001` still pending,
`disconnect()` clears the callback map, the socket handle and the
connector while delivering no rejection to the pending request — the
pending `send` is not synchronously rejected before the transport
handle is cleared. -/
theorem disconnect_clears_without_reject :
    (disconnect ⟨[1000001], true, true⟩).2 = [] ∧
    (disconnect ⟨[1000001], true, true⟩).1.hasSocket = false ∧
    (disconnect ⟨[1000001], true, true⟩).1.hasConnector = false := by
  decide

/-- C6 amended: explicit `disconnect()` clears the pending-callback
map, the socket handle and the connector without rejecting any pending
request; pending requests are instead rejected when the socket `end`
or `error` event reaches their still-installed `once`-listeners
(`Disconnected before response.`), or when their timer fires
(`Request timed out`), so no caller waits beyond its timeout. -/
theorem disconnect_amended :
    (∀ c : ClientConn, disconnect c = (⟨[], false, false⟩, [])) ∧
    (∀ s : ReqState, s.listenersActive = true →
      reqStep s ReqEv.endEv =
        (ReqState.cleanup, some (Outcome.rejected RconErr.disconnectedBeforeResponse)) ∧
      reqStep s ReqEv.errorEv =
        (ReqState.cleanup, some (Outcome.rejected RconErr.disconnectedBeforeResponse))) ∧
    (∀ s : ReqState, s.timerActive = true →
      reqStep s ReqEv.timerFire =
        (ReqState.cleanup, some (Outcome.rejected RconErr.requestTimedOut))) := by
  refine ⟨fun c => rfl, fun s hs => ⟨?_, ?_⟩, fun s ht => ?_⟩
  · simp [reqStep, hs]
  · simp [reqStep, hs]
  · simp [reqStep, ht]

/-- Closed instance of the C6 amended theorem. -/
theorem disconnect_amended_witness :
    disconnect ⟨[5], true, false⟩ = (⟨[], false, false⟩, []) ∧
    reqStep ⟨true, true, true⟩ ReqEv.endEv =
      (ReqState.cleanup, some (Outcome.rejected RconErr.disconnectedBeforeResponse)) :=
  ⟨disconnect_amended.1 ⟨[5], true, false⟩,
    (disconnect_amended.2.1 ⟨true, true, true⟩ rfl).1⟩

/-- C7: a packet with `id == -1` and type `RESPONSE_AUTH` while the
auth request is pending resolves the pending auth request with the
`Authentication failed.` error (removing its callback and resetting
`_authPacketId`) rather than treating it as an orphan reply; the
`connect` chain's catch then sets the state to `Unauthorized` and
clears the connector, after which the `send` guard throws — no command
send proceeds. -/
theorem authFailure_resolves_pending_auth (st : HandlerState) (data : List Nat)
    (authId len : Int)
    (hauth : st.authPacketId = some authId)
    (hmem : authId ∈ st.callbacks)
    (h0 : readInt32LE data 0 = some len) (hlen : len ≠ 0)
    (h4 : readInt32LE data 4 = some (-1))
    (h8 : readInt32LE data 8 = some 2) :
    handleResponse st data =
      Except.ok (⟨st.callbacks.filter (fun k => k ≠ authId), none⟩,
        some (authId, Outcome.rejected RconErr.authenticationFailed)) ∧
    sendGuardThrows false State.Unauthorized = true := by
  constructor
  · unfold handleResponse
    simp only [h0, h4, h8, hauth]
    rw [if_neg hlen]
    simp [hmem, sendCallbackOutcome]
  · rfl

/-- Closed instance of the C7 theorem (a real 14-byte auth-failure
packet: length 10, id −1, type 2). -/
theorem authFailure_resolves_pending_auth_witness :
    handleResponse ⟨[1000001], some 1000001⟩
        [10, 0, 0, 0, 255, 255, 255, 255, 2, 0, 0, 0, 0, 0] =
      Except.ok (⟨[], none⟩,
        some (1000001, Outcome.rejected RconErr.authenticationFailed)) ∧
    sendGuardThrows false State.Unauthorized = true :=
  authFailure_resolves_pending_auth ⟨[1000001], some 1000001⟩
    [10, 0, 0, 0, 255, 255, 255, 255, 2, 0, 0, 0, 0, 0] 1000001 10
    rfl (by decide) (by decide) (by decide) (by decide) (by decide)

/-- C8: at most one terminal outcome per pending request — from the
freshly registered bookkeeping state, any sequence of response, timer
and socket `end`/`error` events settles the request's promise at most
once (whichever handler runs first performs the shared `cleanup()`,
after which every handler is a no-op), and a packet whose id has no
registered callback makes `_handleResponse` a state-preserving no-op
rather than an error. -/
theorem pending_request_single_outcome :
    (∀ evs : List ReqEv, (runTrace ReqState.registered evs).2.length ≤ 1) ∧
    (∀ st : HandlerState, ∀ data : List Nat, ∀ id0 ty0 len : Int,
      readInt32LE data 0 = some len → len ≠ 0 →
      readInt32LE data 4 = some id0 → readInt32LE data 8 = some ty0 →
      ¬(id0 = -1 ∧ st.authPacketId ≠ none ∧ ty0 = 2) →
      id0 ∉ st.callbacks →
      handleResponse st data = Except.ok (st, none)) := by
  constructor
  · intro evs
    cases evs with
    | nil => simp [runTrace]
    | cons e evs =>
      have hstep : (reqStep ReqState.registered e).1 = ReqState.cleanup := by
        cases e <;> rfl
      have hone : (reqStep ReqState.registered e).2.toList.length ≤ 1 := by
        cases e <;> simp [reqStep, ReqState.registered]
      show ((runTrace (reqStep ReqState.registered e).1 evs).1,
        (reqStep ReqState.registered e).2.toList
          ++ (runTrace (reqStep ReqState.registered e).1 evs).2).2.length ≤ 1
      rw [hstep, runTrace_cleanup]
      simpa using hone
  · intro st data id0 ty0 len h0 hlen h4 h8 hguard hmem
    unfold handleResponse
    simp only [h0, h4, h8]
    rw [if_neg hlen, if_neg hguard, if_neg hmem]

/-- Closed instance of the C8 theorem. -/
theorem pending_request_single_outcome_witness :
    (runTrace ReqState.registered [ReqEv.timerFire, ReqEv.endEv]).2.length ≤ 1 ∧
    handleResponse ⟨[], none⟩ [10, 0, 0, 0, 231, 3, 0, 0, 0, 0, 0, 0, 0, 0] =
      Except.ok (⟨[], none⟩, none) :=
  ⟨pending_request_single_outcome.1 [ReqEv.timerFire, ReqEv.endEv],
    pending_request_single_outcome.2 ⟨[], none⟩
      [10, 0, 0, 0, 231, 3, 0, 0, 0, 0, 0, 0, 0, 0] 999 0 10
      (by decide) (by decide) (by decide) (by decide) (by decide) (by decide)⟩

/-- C9: the `errors` accessor returns a fresh copy of the accumulated
error log: the returned reference is distinct from the internal
`_errors` reference, it holds the same contents, and overwriting the
returned array leaves the internal log unchanged. -/
theorem errors_returns_fresh_copy (h : Heap) (r : Nat) (hr : r < h.cells.length) :
    (errorsGetter h r).2 ≠ r ∧
    (errorsGetter h r).1.get (errorsGetter h r).2 = h.get r ∧
    ∀ v : List Nat, ((errorsGetter h r).1.write (errorsGetter h r).2 v).get r = h.get r := by
  refine ⟨?_, ?_, ?_⟩
  · show h.cells.length ≠ r
    omega
  · show (h.cells ++ [h.get r]).getD h.cells.length [] = h.get r
    rw [List.getD_append_right h.cells [h.get r] [] h.cells.length le_rfl]
    simp
  · intro v
    show ((h.cells ++ [h.get r]).set h.cells.length v).getD r [] = h.get r
    rw [List.set_append_right h.cells.length v le_rfl]
    rw [List.getD_append h.cells _ [] r hr]
    rfl

/-- Closed instance of the C9 theorem. -/
theorem errors_returns_fresh_copy_witness :
    (errorsGetter ⟨[[1, 2]]⟩ 0).2 ≠ 0 ∧
    ((errorsGetter ⟨[[1, 2]]⟩ 0).1.write (errorsGetter ⟨[[1, 2]]⟩ 0).2 [9]).get 0 = [1, 2] :=
  ⟨(errors_returns_fresh_copy ⟨[[1, 2]]⟩ 0 (by decide)).1,
    (errors_returns_fresh_copy ⟨[[1, 2]]⟩ 0 (by decide)).2.2 [9]⟩

/-- C10: the constructor rejects an empty or whitespace-only password,
stores an accepted password verbatim (untrimmed) while the host is
stored trimmed, and `_send` embeds the body bytes it is given — hence
the password, surrounding whitespace included — unchanged at offset 12
of the auth packet. -/
theorem ctor_password_untrimmed (host pw : String)
    (hh : (jsTrim host).isEmpty = false)
    (hp1 : pw.isEmpty = false) (hp2 : (jsTrim pw).isEmpty = false) :
    rconCtorHostPassword host pw = some (jsTrim host, pw) ∧
    (∀ pw2 : String, pw2.isEmpty = true ∨ (jsTrim pw2).isEmpty = true →
      rconCtorHostPassword host pw2 = none) ∧
    (∀ b : List Nat, ∀ id cmd : Int, ((sendBuffer b id cmd).drop 12).take b.length = b) := by
  have hhost : host.isEmpty = false := by
    by_cases hc : host.isEmpty = true
    · rw [(String.isEmpty_iff host).mp hc] at hh
      exact absurd hh (by decide)
    · simpa using hc
  have hdrop12 : ∀ b : List Nat, ∀ id cmd : Int, (sendBuffer b id cmd).drop 12 = b ++ [0, 0] := by
    intro b id cmd
    simp only [sendBuffer, List.append_assoc]
    rw [show (12 : Nat) = 4 + (4 + 4) from rfl, ← List.drop_drop, ← List.drop_drop]
    rw [List.drop_left' (writeInt32LE_length _), List.drop_left' (writeInt32LE_length _),
      List.drop_left' (writeInt32LE_length _)]
  refine ⟨?_, ?_, ?_⟩
  · unfold rconCtorHostPassword
    simp [hhost, hh, hp1, hp2]
  · intro pw2 hpw2
    unfold rconCtorHostPassword
    rcases hpw2 with hpe | hpt
    · simp [hhost, hh, hpe]
    · by_cases hpe : pw2.isEmpty = true
      · simp [hhost, hh, hpe]
      · simp [hhost, hh, hpe, hpt]
  · intro b id cmd
    rw [hdrop12 b id cmd, List.take_left' rfl]

/-- Closed instance of the C10 theorem: the password `" secret "` has
surrounding whitespace (`trim` would change it), yet is accepted,
stored verbatim and embedded verbatim in the auth packet body. -/
theorem ctor_password_untrimmed_witness :
    rconCtorHostPassword " localhost " " secret " = some ("localhost", " secret ") ∧
    jsTrim " secret " ≠ " secret " ∧
    ((sendBuffer [32, 115] 5 3).drop 12).take 2 = [32, 115] :=
  ⟨(ctor_password_untrimmed " localhost " " secret " (by decide) (by decide) (by decide)).1,
    by decide,
    (ctor_password_untrimmed " localhost " " secret " (by decide) (by decide) (by decide)).2.2
      [32, 115] 5 3⟩

end Rcon
